import Mathlib

/-!
Verification of the CheBI ETL pipeline (src/synonyms.py) against its
natural-language specification.

The pipeline's tabular data is embedded shallowly: a pandas frame column
becomes a Lean list, a cell of a frame becomes a `Cell` (a Python int, a
Python str, or the float NaN that pandas substitutes for missing fields),
and each pipeline function becomes a Lean function over these lists,
translated line by line from the source.  File I/O is abstracted away:
each embedded function consumes the in-memory table its pandas read
produced and returns the in-memory table that is written out.
-/

namespace Synonyms

/-- A cell of a pandas frame as the source manipulates it: an integer
(int64 column), a string (object column), or NaN (missing field). -/
inductive Cell where
  | int (n : Int)
  | str (s : String)
  | nan
deriving DecidableEq, Repr

/-- Python truthiness of a cell, as tested by the source's
bare if-statements: an int is truthy iff nonzero, a str iff nonempty,
and the float NaN is truthy. -/
def Cell.truthy : Cell → Bool
  | .int n => n != 0
  | .str s => s != ""
  | .nan => true

/-- Python str() of a cell: str(int) prints the number, str of a string is
itself, and str(float(nan)) is the literal string "nan". -/
def pyStr : Cell → String
  | .int n => toString n
  | .str s => s
  | .nan => "nan"

/-- Python str.lower() on the strings this pipeline handles (the spec
itself restricts attention to locale-independent ASCII casing). -/
def strLower (s : String) : String :=
  String.mk (s.data.map Char.toLower)

/-- Python str.upper(), same ASCII reading. -/
def strUpper (s : String) : String :=
  String.mk (s.data.map Char.toUpper)

/-! ### Python dict, as used for the Merger's lookup indices

The source builds plain Python dicts by repeated key assignment
(formulas[row["Compound ID"]] = row["Formula"]); assignment overwrites an
existing key in place, so duplicate keys resolve last-write-wins. -/

/-- Python dict assignment d[k] = v: overwrite the binding if the key is
present, otherwise add a new binding. -/
def dictSet : List (Int × Cell) → Int → Cell → List (Int × Cell)
  | [], k, v => [(k, v)]
  | (k', v') :: rest, k, v =>
    if k' = k then (k', v) :: rest else (k', v') :: dictSet rest k v

/-- Python dict.get(k): the value bound to k, or None when absent. -/
def dictGet : List (Int × Cell) → Int → Option Cell
  | [], _ => none
  | (k', v) :: rest, k => if k' = k then some v else dictGet rest k

/-- The index-building loop of mergeCSVCheBI: iterate the table's rows in
order, assigning d[CompoundID] = value for each. -/
def buildIndex (rows : List (Int × Cell)) : List (Int × Cell) :=
  rows.foldl (fun d r => dictSet d r.1 r.2) []

/-! ### The Merger (mergeCSVCheBI) -/

/-- One row of the Merger's output frame. -/
structure MergedRow where
  cid : Int
  name : Cell
  formula : Cell
  cas : Cell
deriving DecidableEq, Repr

/-- The body of the Merger's per-row branch:
chosen = index.get(id); if chosen: append(chosen) else: append("MISSING").
Note the bare if tests Python truthiness of the looked-up value, not
mere presence of the key. -/
def chooseCell (o : Option Cell) : Cell :=
  match o with
  | some c => if c.truthy then c else Cell.str "MISSING"
  | none => Cell.str "MISSING"

/-- The row loop and column assignment of mergeCSVCheBI, given the two
already-built indices: build formulaList and casList with one entry per
Names row, then attach both as new columns of the Names frame. -/
def mergeRows (formulas cas : List (Int × Cell)) (names : List (Int × Cell)) :
    List MergedRow :=
  let formulaList := names.map (fun r => chooseCell (dictGet formulas r.1))
  let casList := names.map (fun r => chooseCell (dictGet cas r.1))
  (names.zip (formulaList.zip casList)).map
    (fun p => ⟨p.1.1, p.1.2, p.2.1, p.2.2⟩)

/-- mergeCSVCheBI: build the CompoundID-to-Formula and CompoundID-to-
AccessionNumber dicts from the Formulas and CAS tables, then emit one
output row per Names row.  Tables are the in-memory frames of the three
CSV reads: (CompoundID, payload-cell) pairs. -/
def mergeCSVCheBI (formulaCSV casCSV namesCSV : List (Int × Cell)) :
    List MergedRow :=
  mergeRows (buildIndex formulaCSV) (buildIndex casCSV) namesCSV

/-! ### Sorting, as performed by the decompressors' sort_values

The property the spec states (output non-decreasing in the key) is
independent of pandas's sorting algorithm; we embed the sort as a
comparison sort on the key column. -/

/-- Sort a table ascending by an integer key (sort_values(by=key)). -/
def sortByKey {α : Type} (key : α → Int) (l : List α) : List α :=
  List.insertionSort (fun a b => key a ≤ key b) l

/-! ### The decompressors -/

/-- astype('int') on one cell: an int column passes through, a numeric
string is parsed, a non-numeric string raises ValueError, and NaN raises
(pandas cannot cast a missing value to int). -/
def cellToInt : Cell → Except String Int
  | .int n => Except.ok n
  | .str s =>
    match s.toInt? with
    | some n => Except.ok n
    | none => Except.error "ValueError"
  | .nan => Except.error "IntCastingNaNError"

/-- astype('int') on the CompoundID column of a whole table of
(CompoundID, payload) rows: any uncastable cell fails the whole call. -/
def coerceRows : List (Cell × Cell) → Except String (List (Int × Cell))
  | [] => Except.ok []
  | (c, payload) :: rest =>
    match cellToInt c, coerceRows rest with
    | Except.ok n, Except.ok out => Except.ok ((n, payload) :: out)
    | Except.error e, _ => Except.error e
    | _, Except.error e => Except.error e

/-- Elementwise pandas equality of a cell against a string literal, as in
the Type-column filters (NaN and ints compare unequal to any string). -/
def cellIsStr (c : Cell) (s : String) : Bool :=
  match c with
  | .str t => t == s
  | _ => false

/-- decompressMass: read the whitespace-delimited mass table
(ID, Formula, MonoisotopicMass, ExactMass), drop the two mass columns and
write the rest.  No integer coercion and no sort is performed. -/
def decompressMass (mass : List (Cell × Cell × Cell × Cell)) :
    List (Cell × Cell) :=
  mass.map (fun r => (r.1, r.2.1))

/-- decompressSynonyms: read the tab-delimited (ID, Synonym) table and
write it back as CSV unchanged.  No coercion, no filter, no sort. -/
def decompressSynonyms (synonyms : List (Cell × Cell)) : List (Cell × Cell) :=
  synonyms

/-- decompressCheBINames: after the column drops and renames the frame has
the two columns (Compound ID, Name); coerce the id column to int, sort
ascending by it, write.  Input rows are the two surviving columns. -/
def decompressCheBINames (names : List (Cell × Cell)) :
    Except String (List (Int × Cell)) :=
  match coerceRows names with
  | Except.error e => Except.error e
  | Except.ok coerced => Except.ok (sortByKey (fun r => r.1) coerced)

/-- decompressCheBIFormulas: after drops/renames the frame is
(Compound ID, Type, Formula); keep rows whose Type is the literal
"FORMULA", drop the Type column, coerce the id to int, sort ascending. -/
def decompressCheBIFormulas (chem : List (Cell × Cell × Cell)) :
    Except String (List (Int × Cell)) :=
  match coerceRows ((chem.filter (fun r => cellIsStr r.2.1 "FORMULA")).map
      (fun r => (r.1, r.2.2))) with
  | Except.error e => Except.error e
  | Except.ok coerced => Except.ok (sortByKey (fun r => r.1) coerced)

/-- decompressCheBICAS: same shape as the formulas decompressor with the
Type marker "CAS Registry Number" (the source's doubly-bracketed index
drop acts as the same boolean-mask row drop). -/
def decompressCheBICAS (accession : List (Cell × Cell × Cell)) :
    Except String (List (Int × Cell)) :=
  match coerceRows ((accession.filter
      (fun r => cellIsStr r.2.1 "CAS Registry Number")).map
      (fun r => (r.1, r.2.2))) with
  | Except.error e => Except.error e
  | Except.ok coerced => Except.ok (sortByKey (fun r => r.1) coerced)

/-! ### The Filter (filter) -/

/-- One row of the synonyms table (ID, Synonym).  The Synonym values of
the table this stage consumes are strings (a missing synonym would make
the source's substring test raise, which no claim exercises). -/
structure SynRow where
  id : Cell
  syn : String
deriving DecidableEq, Repr

/-- The Python substring test needle in hay, used as
"CHEMBL" in row["Synonym"]. -/
def strContains (hay needle : String) : Bool :=
  hay.data.tails.any (fun t => needle.data.isPrefixOf t)

/-- The shape of one to_csv output: where it is written, whether a header
row is emitted, whether the frame's row index is emitted as a leading
column, and the data rows. -/
structure CsvOut (ρ : Type) where
  path : String
  hasHeader : Bool
  withIndex : Bool
  rows : List ρ
deriving DecidableEq, Repr

/-- filter: read ./cid-synonyms01.csv, iterate its rows (iterrows yields
the snapshot taken at loop entry), drop every row whose Synonym contains
"CHEMBL", and write the surviving frame back to the same path with
batch.to_csv(path) - pandas defaults, so the header AND the row index
are written.  Survivors keep their original index labels, which is what
the emitted index column holds. -/
def filterSynonyms (batch : List SynRow) : CsvOut (Nat × SynRow) :=
  { path := "./cid-synonyms01.csv"
    hasHeader := true
    withIndex := true
    rows := batch.enum.filter (fun p => !(strContains p.2.syn "CHEMBL")) }

/-! ### The Deduplicator (removeDuplicates) -/

/-- One row of the merged table as the Deduplicator sees it: the Name
cell the function keys on, plus the remaining cells of the row. -/
structure DataRow where
  name : Cell
  rest : List Cell
deriving DecidableEq, Repr

/-- The key the Deduplicator stores in its seen-set:
str(row["Name"]).lower(). -/
def dedupKey (r : DataRow) : String :=
  strLower (pyStr r.name)

/-- The row loop of removeDuplicates: iterrows yields the snapshot of the
frame taken at loop entry, and dropping a row's label removes it from the
output frame, so the surviving frame is exactly the rows whose key was
not in the seen-set when they were reached. -/
def removeDuplicatesAux (seen : List String) : List DataRow → List DataRow
  | [] => []
  | r :: rs =>
    if dedupKey r ∈ seen then removeDuplicatesAux seen rs
    else r :: removeDuplicatesAux (dedupKey r :: seen) rs

/-- removeDuplicates: scan the rows with an initially empty seen-set. -/
def removeDuplicates (rows : List DataRow) : List DataRow :=
  removeDuplicatesAux [] rows

/-- The spec's wording of the Deduplicator, stated independently of the
seen-set: keep each row, and remove every later row whose lowercased name
matches it - first occurrence of each case-insensitive name wins. -/
def dedupFirst : List DataRow → List DataRow
  | [] => []
  | r :: rs => r :: dedupFirst (rs.filter (fun x => dedupKey x ≠ dedupKey r))
termination_by l => l.length
decreasing_by
  simp only [List.length_cons]
  exact Nat.lt_succ_of_le (List.length_filter_le _ _)

/-! ### The Case Normalizer (lowercaseNames) -/

/-- Whether pandas's read_csv type inference classifies a raw field as
numeric (optional sign, digits, optional single decimal point). -/
def numericCore (cs : List Char) : Bool :=
  let intPart := cs.takeWhile Char.isDigit
  match cs.dropWhile Char.isDigit with
  | [] => !intPart.isEmpty
  | '.' :: frac => !(intPart.isEmpty && frac.isEmpty) && frac.all Char.isDigit
  | _ => false

/-- Numeric-token test over a whole raw field. -/
def isNumericStr (s : String) : Bool :=
  match s.data with
  | '-' :: rest => numericCore rest
  | '+' :: rest => numericCore rest
  | cs => numericCore cs

/-- read_csv column dtype inference for the Name column, whose raw fields
are given as Option String (none is an empty field, which pandas reads as
NaN).  The column is object-typed (its present fields kept as strings)
iff it is empty or holds at least one present non-numeric field;
otherwise every present field parses as a number (or the column is all
NaN) and the column gets a numeric dtype. -/
def nameColIsObject (raw : List (Option String)) : Bool :=
  raw.isEmpty || raw.any (fun f =>
    match f with
    | some s => !isNumericStr s
    | none => false)

/-- lowercaseNames: data["Name"] = data["Name"].str.upper().  The .str
accessor is only available on an object-typed column and raises
AttributeError otherwise (all-numeric or nonempty all-NaN column); on an
object column it uppercases every string and maps NaN to NaN. -/
def lowercaseNames (raw : List (Option String)) :
    Except String (List (Option String)) :=
  if nameColIsObject raw then
    Except.ok (raw.map (Option.map strUpper))
  else
    Except.error "AttributeError"

/-! ### The Database Loader (makeDatabase) -/

/-- One CSV data row, as loaded for the database append. -/
def CsvRow := List Cell
deriving instance DecidableEq, Repr for CsvRow

/-- The persistent relational store: named tables of appended rows. -/
def Database := List (String × List CsvRow)
deriving instance DecidableEq, Repr for Database

/-- to_sql(name, conn, if_exists='append'): create the table with the
frame's rows if absent, else append them after the existing rows. -/
def dbUpdate : Database → String → List CsvRow → Database
  | [], name, rows => [(name, rows)]
  | (n, rs) :: rest, name, rows =>
    if n = name then (n, rs ++ rows) :: rest
    else (n, rs) :: dbUpdate rest name rows

/-- The rows of a named table (empty for an absent table). -/
def tableRows : Database → String → List CsvRow
  | [], _ => []
  | (n, rs) :: rest, name => if n = name then rs else tableRows rest name

/-- The loader's observable state: the store contents and whether the
sqlite connection handle is open. -/
structure LoaderSt where
  db : Database
  connOpen : Bool
deriving DecidableEq, Repr

/-- One statement of straight-line Python: a state update, or a raise. -/
inductive PyStep (σ : Type) where
  | act (f : σ → σ)
  | raise

/-- Python's execution of a straight-line body with no try/finally: run
statements in order; the first raise aborts, leaving the state as it was
at the raise and propagatiing the exception (second component true). -/
def runSteps {σ : Type} : List (PyStep σ) → σ → σ × Bool
  | [], s => (s, false)
  | PyStep.act f :: rest, s => runSteps rest (f s)
  | PyStep.raise :: _, s => (s, true)

/-- The body of makeDatabase, one PyStep per statement:
connect (opens the handle), data.to_sql(..., if_exists='append')
(parameterised by whether the store layer raises), chemicals.close().
There is no try/finally around any of it. -/
def makeDatabaseSteps (csv : List CsvRow) (name : String)
    (toSqlRaises : Bool) : List (PyStep LoaderSt) :=
  [ PyStep.act (fun s => { s with connOpen := true }),
    if toSqlRaises then PyStep.raise
    else PyStep.act (fun s => { s with db := dbUpdate s.db name csv }),
    PyStep.act (fun s => { s with connOpen := false }) ]

/-- makeDatabase: run the body from a closed handle over the given store
contents; result is the final state and whether an exception escaped. -/
def makeDatabase (csv : List CsvRow) (name : String) (toSqlRaises : Bool)
    (db0 : Database) : LoaderSt × Bool :=
  runSteps (makeDatabaseSteps csv name toSqlRaises)
    { db := db0, connOpen := false }

/-! ## Helper lemmas -/

theorem sortByKey_sorted {α : Type} (key : α → Int) (l : List α) :
    (sortByKey key l).Sorted (fun a b => key a ≤ key b) := by
  haveI : IsTotal α (fun a b => key a ≤ key b) := ⟨fun a b => Int.le_total _ _⟩
  haveI : IsTrans α (fun a b => key a ≤ key b) :=
    ⟨fun _ _ _ hab hbc => le_trans hab hbc⟩
  exact List.sorted_insertionSort _ l

theorem dictGet_dictSet_self (d : List (Int × Cell)) (k : Int) (v : Cell) :
    dictGet (dictSet d k v) k = some v := by
  induction d with
  | nil => simp [dictSet, dictGet]
  | cons p rest ih =>
    obtain ⟨k', v'⟩ := p
    by_cases h : k' = k
    · simp [dictSet, dictGet, h]
    · simp [dictSet, dictGet, h, ih]

theorem dictGet_dictSet_ne (d : List (Int × Cell)) (k k2 : Int) (v : Cell)
    (h : k2 ≠ k) : dictGet (dictSet d k2 v) k = dictGet d k := by
  induction d with
  | nil => simp [dictSet, dictGet, h]
  | cons p rest ih =>
    obtain ⟨k', v'⟩ := p
    have hk : k ≠ k2 := Ne.symm h
    by_cases h' : k' = k2
    · subst h'; simp [dictSet, dictGet, h]
    · by_cases h'' : k' = k <;> simp [dictSet, dictGet, h', h'', hk, ih]

theorem buildIndex_get (rows : List (Int × Cell)) (k : Int) :
    dictGet (buildIndex rows) k =
      ((rows.filter (fun r => r.1 == k)).getLast?).map Prod.snd := by
  induction rows using List.reverseRecOn with
  | nil => simp [buildIndex, dictGet]
  | append_singleton rs r ih =>
    have hfold : buildIndex (rs ++ [r]) = dictSet (buildIndex rs) r.1 r.2 := by
      simp [buildIndex, List.foldl_append]
    by_cases h : r.1 = k
    · rw [hfold, h, dictGet_dictSet_self]
      rw [List.filter_append]
      simp [h, List.getLast?_concat]
    · rw [hfold, dictGet_dictSet_ne _ _ _ _ h, ih, List.filter_append]
      simp [h]

/-! ## Claim C2 -/

/-- C2 counterexample: the claim quantifies over every Decompressor, but
decompressMass neither coerces nor sorts: on an input whose ID column
reads 2 then 1, the written output's CompoundID sequence is 2 then 1,
which is not non-decreasing. -/
theorem decompressMass_unsorted_counterexample :
    (decompressMass [(Cell.int 2, Cell.str "X", Cell.nan, Cell.nan),
        (Cell.int 1, Cell.str "Y", Cell.nan, Cell.nan)]).map Prod.fst =
      [Cell.int 2, Cell.int 1] ∧ ¬ ((2 : Int) ≤ 1) :=
  ⟨rfl, by decide⟩

/-- C2 amended: the three CheBI decompressors coerce CompoundID to an
integer (integer-typed by construction of their output) and emit rows
sorted non-decreasing by it; decompressMass and decompressSynonyms
perform no coercion and no sort, writing their rows in input order. -/
theorem decompressor_output_sorted :
    (∀ inp out, decompressCheBINames inp = Except.ok out →
      out.Sorted (fun a b : Int × Cell => a.1 ≤ b.1)) ∧
    (∀ inp out, decompressCheBIFormulas inp = Except.ok out →
      out.Sorted (fun a b : Int × Cell => a.1 ≤ b.1)) ∧
    (∀ inp out, decompressCheBICAS inp = Except.ok out →
      out.Sorted (fun a b : Int × Cell => a.1 ≤ b.1)) ∧
    (∀ inp, decompressMass inp = inp.map (fun r => (r.1, r.2.1))) ∧
    (∀ inp, decompressSynonyms inp = inp) := by
  refine ⟨?_, ?_, ?_, fun _ => rfl, fun _ => rfl⟩
  · intro inp out h
    cases hc : coerceRows inp <;> simp [decompressCheBINames, hc] at h
    subst h
    exact sortByKey_sorted (fun r : Int × Cell => r.1) _
  · intro inp out h
    cases hc : coerceRows ((inp.filter
        (fun r : Cell × Cell × Cell => cellIsStr r.2.1 "FORMULA")).map
        (fun r => (r.1, r.2.2))) <;> simp [decompressCheBIFormulas, hc] at h
    subst h
    exact sortByKey_sorted (fun r : Int × Cell => r.1) _
  · intro inp out h
    cases hc : coerceRows ((inp.filter
        (fun r : Cell × Cell × Cell => cellIsStr r.2.1 "CAS Registry Number")).map
        (fun r => (r.1, r.2.2))) <;> simp [decompressCheBICAS, hc] at h
    subst h
    exact sortByKey_sorted (fun r : Int × Cell => r.1) _

/-- C2 witness: the CheBINames decompressor on a concrete two-row input
succeeds and its output is sorted by CompoundID. -/
theorem decompressor_output_sorted_witness :
    List.Sorted (fun a b : Int × Cell => a.1 ≤ b.1)
      [((1 : Int), Cell.str "a"), ((2 : Int), Cell.str "b")] :=
  decompressor_output_sorted.1
    [(Cell.int 2, Cell.str "b"), (Cell.int 1, Cell.str "a")]
    [((1 : Int), Cell.str "a"), ((2 : Int), Cell.str "b")] rfl

/-! ## Claim C8 -/

/-- C8: when the Merger builds a lookup index, duplicate CompoundIDs
resolve last-write-wins - with at least two rows sharing the key, the
index maps it to the value of the last such row in table order. -/
theorem mergeIndex_lastWriteWins (rows : List (Int × Cell)) (k : Int)
    (_h : 2 ≤ (rows.filter (fun r => r.1 == k)).length) :
    dictGet (buildIndex rows) k =
      ((rows.filter (fun r => r.1 == k)).getLast?).map Prod.snd :=
  buildIndex_get rows k

/-- C8 witness: a table binding CompoundID 1 first to X then to Y indexes
it to Y. -/
theorem mergeIndex_lastWriteWins_witness :
    dictGet (buildIndex [((1 : Int), Cell.str "X"), ((1 : Int), Cell.str "Y")])
      1 = some (Cell.str "Y") := by
  have h := mergeIndex_lastWriteWins
    [((1 : Int), Cell.str "X"), ((1 : Int), Cell.str "Y")] 1 (by decide)
  simpa using h

/-! ## Deduplicator lemmas -/

theorem dedupFirst_sublist : ∀ l : List DataRow, List.Sublist (dedupFirst l) l
  | [] => by simp [dedupFirst]
  | r :: rs => by
    rw [dedupFirst]
    exact List.Sublist.cons₂ r
      ((dedupFirst_sublist _).trans (List.filter_sublist rs))
termination_by l => l.length
decreasing_by
  simp only [List.length_cons]
  exact Nat.lt_succ_of_le (List.length_filter_le _ _)

theorem dedupFirst_pairwise : ∀ l : List DataRow,
    (dedupFirst l).Pairwise (fun a b => dedupKey a ≠ dedupKey b)
  | [] => by simp [dedupFirst]
  | r :: rs => by
    rw [dedupFirst]
    refine List.Pairwise.cons ?_ (dedupFirst_pairwise _)
    intro b hb
    have hbmem := (dedupFirst_sublist _).subset hb
    have hkey := List.of_mem_filter hbmem
    simp only [decide_eq_true_eq] at hkey
    exact fun hrb => hkey hrb.symm
termination_by l => l.length
decreasing_by
  simp only [List.length_cons]
  exact Nat.lt_succ_of_le (List.length_filter_le _ _)

theorem removeDuplicatesAux_sublist :
    ∀ (l : List DataRow) (seen : List String),
      List.Sublist (removeDuplicatesAux seen l) l := by
  intro l
  induction l with
  | nil => intro seen; simp [removeDuplicatesAux]
  | cons r rs ih =>
    intro seen
    by_cases h : dedupKey r ∈ seen
    · simp only [removeDuplicatesAux, if_pos h]
      exact (ih seen).cons r
    · simp only [removeDuplicatesAux, if_neg h]
      exact (ih _).cons₂ r

theorem removeDuplicatesAux_eq_dedupFirst :
    ∀ (l : List DataRow) (seen : List String),
      removeDuplicatesAux seen l =
        dedupFirst (l.filter (fun r => dedupKey r ∉ seen)) := by
  intro l
  induction l with
  | nil => intro seen; simp [removeDuplicatesAux, dedupFirst]
  | cons r rs ih =>
    intro seen
    by_cases h : dedupKey r ∈ seen
    · have h1 : removeDuplicatesAux seen (r :: rs) =
          removeDuplicatesAux seen rs := by
        simp [removeDuplicatesAux, h]
      have h2 : (r :: rs).filter (fun x => decide (dedupKey x ∉ seen)) =
          rs.filter (fun x => decide (dedupKey x ∉ seen)) := by
        simp [List.filter_cons, h]
      rw [h1, h2, ih seen]
    · have h1 : removeDuplicatesAux seen (r :: rs) =
          r :: removeDuplicatesAux (dedupKey r :: seen) rs := by
        simp [removeDuplicatesAux, h]
      have h2 : (r :: rs).filter (fun x => decide (dedupKey x ∉ seen)) =
          r :: rs.filter (fun x => decide (dedupKey x ∉ seen)) := by
        simp [List.filter_cons, h]
      rw [h1, h2, dedupFirst, ih (dedupKey r :: seen), List.filter_filter]
      congr 1
      congr 1
      apply List.filter_congr
      intro x _
      simp [List.mem_cons, not_or, Bool.and_comm]

theorem removeDuplicates_eq_dedupFirst (l : List DataRow) :
    removeDuplicates l = dedupFirst l := by
  rw [removeDuplicates, removeDuplicatesAux_eq_dedupFirst]
  congr 1
  exact List.filter_eq_self.mpr (fun a _ => by simp)

theorem pairwise_key_filter_length_le_one (p : DataRow → Bool) (s : String)
    (hp : ∀ r, p r = true → dedupKey r = s) :
    ∀ l : List DataRow,
      l.Pairwise (fun a b => dedupKey a ≠ dedupKey b) →
        (l.filter p).length ≤ 1 := by
  intro l
  induction l with
  | nil => intro _; simp
  | cons r rs ih =>
    intro hpw
    rcases List.pairwise_cons.mp hpw with ⟨hhead, htail⟩
    by_cases h : p r = true
    · have hnil : rs.filter p = [] := by
        rw [List.filter_eq_nil_iff]
        intro b hb hpb
        exact hhead b hb ((hp r h).trans (hp b hpb).symm)
      simp [List.filter_cons, h, hnil]
    · simpa [List.filter_cons, h] using ih htail

/-! ## Claim C3 -/

/-- C3: removeDuplicates keeps a row exactly when its lowercased
(stringified) Name has not appeared in an earlier row: it agrees with the
first-occurrence-wins description dedupFirst, its output never contains
two rows with case-insensitively equal names, survivors keep their
original relative order (the output is a sublist of the input), and the
spec's Water/WATER/Salt example holds. -/
theorem removeDuplicates_correct :
    (∀ l, removeDuplicates l = dedupFirst l) ∧
    (∀ l, (removeDuplicates l).Pairwise (fun a b => dedupKey a ≠ dedupKey b)) ∧
    (∀ l, List.Sublist (removeDuplicates l) l) ∧
    removeDuplicates [⟨Cell.str "Water", []⟩, ⟨Cell.str "WATER", []⟩,
        ⟨Cell.str "Salt", []⟩] =
      [⟨Cell.str "Water", []⟩, ⟨Cell.str "Salt", []⟩] := by
  refine ⟨removeDuplicates_eq_dedupFirst, ?_, fun l => removeDuplicatesAux_sublist l [], ?_⟩
  · intro l
    rw [removeDuplicates_eq_dedupFirst]
    exact dedupFirst_pairwise l
  · decide

/-! ## Claim C10 -/

/-- C10: because the Deduplicator keys on str(Name).lower(), every
missing (NaN) Name stringifies to "nan": at most one row with a missing
Name survives, a literal "NaN" after a missing-Name row is dropped as its
duplicate, and a missing Name after a literal "nAn" is dropped as its
duplicate - whichever comes first in input order survives. -/
theorem removeDuplicates_nan_collapse :
    (∀ l, ((removeDuplicates l).filter (fun r => r.name == Cell.nan)).length ≤ 1) ∧
    removeDuplicates [⟨Cell.nan, []⟩, ⟨Cell.str "NaN", []⟩] = [⟨Cell.nan, []⟩] ∧
    removeDuplicates [⟨Cell.str "nAn", []⟩, ⟨Cell.nan, []⟩] =
      [⟨Cell.str "nAn", []⟩] := by
  refine ⟨?_, by decide, by decide⟩
  intro l
  have hpw : (removeDuplicates l).Pairwise (fun a b => dedupKey a ≠ dedupKey b) := by
    rw [removeDuplicates_eq_dedupFirst]; exact dedupFirst_pairwise l
  refine pairwise_key_filter_length_le_one _ "nan" ?_ _ hpw
  intro r hr
  have hname : r.name = Cell.nan := by simpa using hr
  rw [dedupKey, hname]
  decide

/-! ## Filter lemmas and Claim C4 -/

theorem enumFrom_filter_map_snd {α : Type} (q : α → Bool) :
    ∀ (n : Nat) (l : List α),
      (((List.enumFrom n l).filter (fun p => q p.2)).map Prod.snd) =
        l.filter q := by
  intro n l
  induction l generalizing n with
  | nil => simp
  | cons a as ih =>
    by_cases h : q a <;> simp [List.enumFrom, List.filter_cons, h, ih]

/-- C4 counterexample: the claim says the written output CSV has no
row-index column, but the source calls to_csv without index=False, so the
frame's row index IS emitted (and survivors carry their original index
labels - here the surviving "ethanol" row carries label 1). -/
theorem filterSynonyms_counterexample :
    (filterSynonyms [⟨Cell.int 1, "CHEMBL123"⟩,
        ⟨Cell.int 2, "ethanol"⟩]).withIndex = true ∧
    (filterSynonyms [⟨Cell.int 1, "CHEMBL123"⟩, ⟨Cell.int 2, "ethanol"⟩]).rows =
      [(1, ⟨Cell.int 2, "ethanol"⟩)] :=
  ⟨rfl, rfl⟩

/-- C4 amended: the Filter removes exactly the rows whose Synonym
contains the case-sensitive literal "CHEMBL", writes the survivors back
to the same path in their original relative order with a header row, and
the written CSV ALSO includes the pandas row-index column (to_csv is
called without index=False). -/
theorem filterSynonyms_correct :
    (∀ batch, ((filterSynonyms batch).rows.map Prod.snd) =
      batch.filter (fun r => !(strContains r.syn "CHEMBL"))) ∧
    (∀ batch, (filterSynonyms batch).path = "./cid-synonyms01.csv" ∧
      (filterSynonyms batch).hasHeader = true ∧
      (filterSynonyms batch).withIndex = true) ∧
    ((filterSynonyms [⟨Cell.int 1, "CHEMBL123"⟩,
        ⟨Cell.int 2, "ethanol"⟩]).rows.map Prod.snd =
      [⟨Cell.int 2, "ethanol"⟩]) := by
  refine ⟨?_, fun _ => ⟨rfl, rfl, rfl⟩, rfl⟩
  intro batch
  have h := enumFrom_filter_map_snd
    (fun r : SynRow => !(strContains r.syn "CHEMBL")) 0 batch
  simpa [filterSynonyms, List.enum] using h

/-! ## Database Loader lemmas and Claims C5, C6 -/

theorem tableRows_dbUpdate_self (db : Database) (name : String)
    (rows : List CsvRow) :
    tableRows (dbUpdate db name rows) name = tableRows db name ++ rows := by
  induction db with
  | nil => simp [dbUpdate, tableRows]
  | cons p rest ih =>
    obtain ⟨n, rs⟩ := p
    by_cases h : n = name <;> simp [dbUpdate, tableRows, h, ih]

theorem tableRows_dbUpdate_ne (db : Database) (name : String)
    (rows : List CsvRow) (other : String) (h : other ≠ name) :
    tableRows (dbUpdate db name rows) other = tableRows db other := by
  induction db with
  | nil => simp [dbUpdate, tableRows, Ne.symm h]
  | cons p rest ih =>
    obtain ⟨n, rs⟩ := p
    by_cases h' : n = name
    · subst h'
      simp [dbUpdate, tableRows, Ne.symm h]
    · by_cases h'' : n = other <;> simp [dbUpdate, tableRows, h', h'', h, ih]

/-- C5 counterexample: running the loader on a path where the append into
the store raises leaves the connection handle open - the exception
propagates (second component true) with connOpen still true, so the
handle is NOT released on every exit path. -/
theorem makeDatabase_leak_counterexample :
    (makeDatabase [[Cell.int 1]] "t" true []).1.connOpen = true ∧
    (makeDatabase [[Cell.int 1]] "t" true []).2 = true :=
  ⟨rfl, rfl⟩

/-- C5 amended: the loader closes the store handle on the normal exit
path (no exception escapes and the handle ends closed); on the exit path
where the append raises, the exception propagates with the handle still
open, because the body has no try/finally. -/
theorem makeDatabase_close_paths :
    (∀ csv name db0, (makeDatabase csv name false db0).1.connOpen = false ∧
      (makeDatabase csv name false db0).2 = false) ∧
    (∀ csv name db0, (makeDatabase csv name true db0).1.connOpen = true ∧
      (makeDatabase csv name true db0).2 = true) :=
  ⟨fun _ _ _ => ⟨rfl, rfl⟩, fun _ _ _ => ⟨rfl, rfl⟩⟩

/-- C6: the loader is append-only and not idempotent: one successful call
appends exactly the CSV's rows after the target table's existing rows,
leaves every other table untouched, and calling it twice on a fresh
table leaves the input's rows twice (no deduplication, no update, no
delete). -/
theorem makeDatabase_append_only :
    (∀ db0 csv name,
      tableRows ((makeDatabase csv name false db0).1.db) name =
        tableRows db0 name ++ csv) ∧
    (∀ db0 csv name other, other ≠ name →
      tableRows ((makeDatabase csv name false db0).1.db) other =
        tableRows db0 other) ∧
    (∀ db0 csv name, tableRows db0 name = [] →
      tableRows ((makeDatabase csv name false
        (makeDatabase csv name false db0).1.db).1.db) name = csv ++ csv) := by
  have hdb : ∀ csv name db0,
      (makeDatabase csv name false db0).1.db = dbUpdate db0 name csv :=
    fun _ _ _ => rfl
  refine ⟨?_, ?_, ?_⟩
  · intro db0 csv name
    rw [hdb, tableRows_dbUpdate_self]
  · intro db0 csv name other hne
    rw [hdb, tableRows_dbUpdate_ne _ _ _ _ hne]
  · intro db0 csv name h0
    rw [hdb, hdb, tableRows_dbUpdate_self, tableRows_dbUpdate_self, h0]
    simp

/-- C6 witness: the first append leaves other tables empty, and appending
the same two-row CSV twice into a fresh table yields those four rows. -/
theorem makeDatabase_append_only_witness :
    tableRows ((makeDatabase [[Cell.int 1]] "chemicals" false []).1.db)
      "other" = [] ∧
    tableRows ((makeDatabase [[Cell.int 1], [Cell.int 2]] "chemicals" false
      (makeDatabase [[Cell.int 1], [Cell.int 2]] "chemicals" false
        []).1.db).1.db) "chemicals" =
      [[Cell.int 1], [Cell.int 2], [Cell.int 1], [Cell.int 2]] := by
  constructor
  · have h := makeDatabase_append_only.2.1 [] [[Cell.int 1]] "chemicals"
      "other" (by decide)
    simpa using h
  · have h := makeDatabase_append_only.2.2 [] [[Cell.int 1], [Cell.int 2]]
      "chemicals" rfl
    simpa using h

/-! ## Claim C7 -/

/-- C7 counterexample: the claim says missing Name values are handled
without raising for every input, but a column whose fields are all
missing is read with a numeric (float) dtype, on which the .str accessor
raises AttributeError. -/
theorem lowercaseNames_counterexample :
    lowercaseNames [(none : Option String)] = Except.error "AttributeError" :=
  rfl

/-- C7 amended: when the Name column is object-typed (it is empty or
holds at least one non-numeric string), lowercaseNames succeeds: every
string is replaced by its uppercase form and missing values pass through
untouched; but on a nonempty column with no string-classified field
(all-missing, and likewise all-numeric) the .str accessor raises. -/
theorem lowercaseNames_correct :
    (∀ raw out, lowercaseNames raw = Except.ok out →
      out = raw.map (Option.map strUpper)) ∧
    (∀ raw, raw ≠ [] → raw.all Option.isNone = true →
      lowercaseNames raw = Except.error "AttributeError") ∧
    lowercaseNames [some "glucose"] = Except.ok [some "GLUCOSE"] := by
  refine ⟨?_, ?_, rfl⟩
  · intro raw out h
    by_cases ho : nameColIsObject raw <;> simp [lowercaseNames, ho] at h
    exact h.symm
  · intro raw hne hall
    have hobj : nameColIsObject raw = false := by
      cases raw with
      | nil => exact absurd rfl hne
      | cons a as =>
        simp only [nameColIsObject, List.isEmpty_cons, Bool.false_or]
        rw [List.any_eq_false]
        intro f hf
        have hfnone := List.all_eq_true.mp hall f hf
        rw [Option.isNone_iff_eq_none] at hfnone
        subst hfnone
        simp
    simp [lowercaseNames, hobj]

/-- C7 witness: on an object-typed column the casing succeeds ("a" maps
to "A", the missing field stays missing), and a two-row all-missing
column raises. -/
theorem lowercaseNames_correct_witness :
    ([some "A", (none : Option String)] =
      [some "a", (none : Option String)].map (Option.map strUpper)) ∧
    lowercaseNames [(none : Option String), none] =
      Except.error "AttributeError" :=
  ⟨lowercaseNames_correct.1 [some "a", none] [some "A", none] rfl,
   lowercaseNames_correct.2.1 [none, none] (by decide) rfl⟩

/-! ## Merger lemmas and Claims C1, C9 -/

theorem mergeRows_eq_map (F C : List (Int × Cell)) :
    ∀ names, mergeRows F C names = names.map (fun r =>
      ⟨r.1, r.2, chooseCell (dictGet F r.1), chooseCell (dictGet C r.1)⟩) := by
  intro names
  induction names with
  | nil => rfl
  | cons r rs ih =>
    have step : mergeRows F C (r :: rs) =
        ⟨r.1, r.2, chooseCell (dictGet F r.1), chooseCell (dictGet C r.1)⟩ ::
          mergeRows F C rs := rfl
    rw [step, ih, List.map_cons]

theorem chooseCell_eq_missing_iff (o : Option Cell) :
    chooseCell o = Cell.str "MISSING" ↔
      (o = none ∨ o = some (Cell.str "") ∨ o = some (Cell.int 0) ∨
        o = some (Cell.str "MISSING")) := by
  cases o with
  | none => simp [chooseCell]
  | some c =>
    cases c with
    | int n => by_cases h : n = 0 <;> simp [chooseCell, Cell.truthy, h]
    | str s =>
      by_cases h : s = ""
      · simp [chooseCell, Cell.truthy, h]
      · by_cases h' : s = "MISSING" <;>
          simp [chooseCell, Cell.truthy, h, h']
    | nan => simp [chooseCell, Cell.truthy]

theorem chooseCell_of_truthy (c : Cell) (ht : c.truthy = true) :
    chooseCell (some c) = c := by
  simp [chooseCell, ht]

/-- C1 counterexample: CompoundIDs 1 and 2 are present in the Formulas
lookup index, bound to the empty string and to the integer 0; the claim
says a present key's value is held in the output (the sentinel marks only
absent keys), but the source's bare truthiness test replaces both present
falsy values with "MISSING". -/
theorem mergeCSVCheBI_sentinel_counterexample :
    dictGet (buildIndex [((1 : Int), Cell.str ""), ((2 : Int), Cell.int 0)]) 1 =
      some (Cell.str "") ∧
    dictGet (buildIndex [((1 : Int), Cell.str ""), ((2 : Int), Cell.int 0)]) 2 =
      some (Cell.int 0) ∧
    mergeCSVCheBI [((1 : Int), Cell.str ""), ((2 : Int), Cell.int 0)] []
        [((1 : Int), Cell.str "A"), ((2 : Int), Cell.str "B")] =
      [⟨1, Cell.str "A", Cell.str "MISSING", Cell.str "MISSING"⟩,
       ⟨2, Cell.str "B", Cell.str "MISSING", Cell.str "MISSING"⟩] :=
  ⟨rfl, rfl, rfl⟩

/-- C1 amended: for every Names row the output Formula cell is the
indexed value whenever the lookup returns a Python-truthy value, and the
sentinel "MISSING" exactly when the lookup is absent, or returns a falsy
value (empty string or integer 0), or returns the literal "MISSING"
itself; likewise for the CAS column.  The source distinguishes truthy
from falsy lookups, not present from absent keys. -/
theorem mergeCSVCheBI_sentinel (ftbl ctbl names : List (Int × Cell))
    (i : Nat) (r : Int × Cell) (h : names[i]? = some r) :
    ∃ m : MergedRow, (mergeCSVCheBI ftbl ctbl names)[i]? = some m ∧
      m.cid = r.1 ∧ m.name = r.2 ∧
      (m.formula = Cell.str "MISSING" ↔
        (dictGet (buildIndex ftbl) r.1 = none ∨
         dictGet (buildIndex ftbl) r.1 = some (Cell.str "") ∨
         dictGet (buildIndex ftbl) r.1 = some (Cell.int 0) ∨
         dictGet (buildIndex ftbl) r.1 = some (Cell.str "MISSING"))) ∧
      (∀ c, dictGet (buildIndex ftbl) r.1 = some c → c.truthy = true →
        m.formula = c) ∧
      (m.cas = Cell.str "MISSING" ↔
        (dictGet (buildIndex ctbl) r.1 = none ∨
         dictGet (buildIndex ctbl) r.1 = some (Cell.str "") ∨
         dictGet (buildIndex ctbl) r.1 = some (Cell.int 0) ∨
         dictGet (buildIndex ctbl) r.1 = some (Cell.str "MISSING"))) ∧
      (∀ c, dictGet (buildIndex ctbl) r.1 = some c → c.truthy = true →
        m.cas = c) := by
  refine ⟨⟨r.1, r.2, chooseCell (dictGet (buildIndex ftbl) r.1),
    chooseCell (dictGet (buildIndex ctbl) r.1)⟩, ?_, rfl, rfl,
    chooseCell_eq_missing_iff _, ?_, chooseCell_eq_missing_iff _, ?_⟩
  · rw [mergeCSVCheBI, mergeRows_eq_map, List.getElem?_map, h]
    rfl
  · intro c hc ht
    show chooseCell (dictGet (buildIndex ftbl) r.1) = c
    rw [hc]
    exact chooseCell_of_truthy c ht
  · intro c hc ht
    show chooseCell (dictGet (buildIndex ctbl) r.1) = c
    rw [hc]
    exact chooseCell_of_truthy c ht

/-- C1 witness, instantiating the amended theorem on the spec's worked
example: Names row (1, "A"), empty Formulas table, CAS table binding 1 to
"50-00-0" - the Formula lookup is absent so the sentinel appears, and the
CAS lookup is truthy so "50-00-0" appears. -/
theorem mergeCSVCheBI_sentinel_witness :
    ∃ m : MergedRow,
      (mergeCSVCheBI [] [((1 : Int), Cell.str "50-00-0")]
        [((1 : Int), Cell.str "A")])[0]? = some m ∧
      m.cid = 1 ∧ m.name = Cell.str "A" ∧
      (m.formula = Cell.str "MISSING" ↔
        (dictGet (buildIndex []) 1 = none ∨
         dictGet (buildIndex []) 1 = some (Cell.str "") ∨
         dictGet (buildIndex []) 1 = some (Cell.int 0) ∨
         dictGet (buildIndex []) 1 = some (Cell.str "MISSING"))) ∧
      (∀ c, dictGet (buildIndex []) 1 = some c → c.truthy = true →
        m.formula = c) ∧
      (m.cas = Cell.str "MISSING" ↔
        (dictGet (buildIndex [((1 : Int), Cell.str "50-00-0")]) 1 = none ∨
         dictGet (buildIndex [((1 : Int), Cell.str "50-00-0")]) 1 =
           some (Cell.str "") ∨
         dictGet (buildIndex [((1 : Int), Cell.str "50-00-0")]) 1 =
           some (Cell.int 0) ∨
         dictGet (buildIndex [((1 : Int), Cell.str "50-00-0")]) 1 =
           some (Cell.str "MISSING"))) ∧
      (∀ c, dictGet (buildIndex [((1 : Int), Cell.str "50-00-0")]) 1 =
        some c → c.truthy = true → m.cas = c) :=
  mergeCSVCheBI_sentinel [] [((1 : Int), Cell.str "50-00-0")]
    [((1 : Int), Cell.str "A")] 0 ((1 : Int), Cell.str "A") rfl

/-- C9: the Merger emits exactly one output row per Names row, in the
Names table's original order, whose CompoundID and Name columns are the
Names row's - unmatched rows are retained (with whatever the sentinel
logic fills in), never dropped.  The remaining two fields of a MergedRow
are its Formula and CAS columns. -/
theorem mergeCSVCheBI_row_per_names_row (ftbl ctbl names : List (Int × Cell)) :
    (mergeCSVCheBI ftbl ctbl names).length = names.length ∧
    (mergeCSVCheBI ftbl ctbl names).map MergedRow.cid = names.map Prod.fst ∧
    (mergeCSVCheBI ftbl ctbl names).map MergedRow.name = names.map Prod.snd := by
  rw [mergeCSVCheBI, mergeRows_eq_map]
  refine ⟨List.length_map _ _, ?_, ?_⟩ <;>
    simp [List.map_map, Function.comp]

end Synonyms
